import Mathlib

/-!
Verification development for the canvas state model of the ApexAi repository.

The definitions below are a shallow embedding of the TypeScript canvas
state logic from src/src/app/page.tsx, src/src/lib/canvas/types.ts,
src/src/lib/canvas/state.ts and src/src/lib/canvas/updates.ts.
JavaScript numbers that only ever hold integers are modelled as Int,
JavaScript strings as Lean String, optional fields as Option, and the
relevant JavaScript string primitives (Number.parseInt, String(n),
padStart) as explicit Lean functions over character lists.
-/

namespace ApexAi

/-! ## JavaScript string and number primitives used by the canvas code -/

/-- The decimal digit character for a digit value below ten
(model of the characters produced by JavaScript String(n)). -/
def digitChar (d : Nat) : Char := Char.ofNat (48 + d)

/-- Big-endian decimal digit characters of a natural number, with explicit
fuel so that the definition is structural and computes by reduction.
Fuel n + 1 is always sufficient since a number has at most n + 1 digits. -/
def natToDigitsAux : Nat → Nat → List Char
  | 0, _ => []
  | fuel + 1, n => if n < 10 then [digitChar n] else natToDigitsAux fuel (n / 10) ++ [digitChar (n % 10)]

/-- Decimal digit characters of a natural number. -/
def natToDigits (n : Nat) : List Char := natToDigitsAux (n + 1) n

/-- Model of JavaScript String(n) for an integer-valued number. -/
def jsStringOfIntChars (n : Int) : List Char :=
  if n < 0 then '-' :: natToDigits n.natAbs else natToDigits n.natAbs

/-- Model of s.padStart(4, "0") at the character-list level. -/
def padChars (cs : List Char) : List Char := List.replicate (4 - cs.length) '0' ++ cs

/-- The id string allocated for item number n:
String(n).padStart(4, "0") in the source. -/
def intToId (n : Int) : String := String.mk (padChars (jsStringOfIntChars n))

/-- Numeric value of a list of decimal digit characters, most significant first. -/
def parseDigitsVal (cs : List Char) : Nat := cs.foldl (fun a c => a * 10 + (c.toNat - 48)) 0

/-- Parse the longest leading run of decimal digits; none when there is no digit
(the NaN outcome of JavaScript parseInt). -/
def parseDigits (cs : List Char) : Option Nat :=
  let ds := cs.takeWhile Char.isDigit
  if ds.isEmpty then none else some (parseDigitsVal ds)

/-- Model of JavaScript Number.parseInt(s, 10): skip leading whitespace, allow
one sign character, then read the longest digit prefix; none models NaN. -/
def jsParseIntChars (cs0 : List Char) : Option Int :=
  match cs0.dropWhile Char.isWhitespace with
  | [] => none
  | c :: rest =>
    if c = '-' then (parseDigits rest).map (fun n => -(n : Int))
    else if c = '+' then (parseDigits rest).map (fun n => (n : Int))
    else (parseDigits (c :: rest)).map (fun n => (n : Int))

/-- Number.parseInt(s, 10) on a Lean string. -/
def jsParseInt (s : String) : Option Int := jsParseIntChars s.data

/-- JavaScript truthiness of an optional string field:
undefined and the empty string are falsy. -/
def jsTruthyStr : Option String → Bool
  | none => false
  | some s => s ≠ ""

/-- Model of the JavaScript expression "v || dflt" on an optional string:
the default is used when the field is undefined or the empty string. -/
def jsOrStr (v : Option String) (dflt : String) : String :=
  match v with
  | none => dflt
  | some s => if s = "" then dflt else s

/-- Model of JavaScript String.prototype.trim: drop whitespace from both ends. -/
def jsTrim (s : String) : String :=
  String.mk (((s.data.dropWhile Char.isWhitespace).reverse.dropWhile Char.isWhitespace).reverse)

/-! ## Data model (src/lib/canvas/types.ts) -/

/-- CardType from types.ts; the running system has the single variant "document". -/
inductive CardType where
  | document
  deriving DecidableEq, Repr

/-- DocumentData from types.ts. Optional fields are Option valued. -/
structure DocumentData where
  content : String
  createdAt : Option String := none
  modifiedAt : Option String := none
  wordCount : Option Nat := none
  googleDocsId : Option String := none
  googleDriveId : Option String := none
  googleDriveLink : Option String := none
  googleDriveMimeType : Option String := none
  deriving DecidableEq, Repr

/-- Item from types.ts. -/
structure Item where
  id : String
  type : CardType
  name : String
  subtitle : String
  data : DocumentData
  deriving DecidableEq, Repr

/-- AgentState from types.ts: the shared canvas snapshot. -/
structure AgentState where
  items : List Item
  globalTitle : String
  globalDescription : String
  lastAction : Option String := none
  itemsCreated : Int
  syncSheetId : Option String := none
  syncSheetName : Option String := none
  deriving DecidableEq, Repr

/-- initialState from src/lib/canvas/state.ts. -/
def initialState : AgentState :=
  { items := [], globalTitle := "", globalDescription := "", lastAction := some ""
    itemsCreated := 0, syncSheetId := some "" }

/-- defaultDataFor from src/lib/canvas/state.ts, with the wall clock passed
explicitly as the ISO timestamp string it produces. -/
def defaultDataFor (now : String) : DocumentData :=
  { content := "", createdAt := some now, modifiedAt := some now, wordCount := some 0 }

/-! ## Document content updater (src/lib/canvas/updates.ts) -/

/-- Tokenizer at the character-list level: acc accumulates the current token
in reverse; every maximal run of whitespace ends a token. -/
def splitWsRunsAux : List Char → List Char → List (List Char)
  | [], acc => if acc = [] then [] else [acc.reverse]
  | c :: rest, acc =>
    if c.isWhitespace then
      if acc = [] then splitWsRunsAux rest [] else acc.reverse :: splitWsRunsAux rest []
    else splitWsRunsAux rest (c :: acc)

/-- The token list obtained by splitting a string on runs of whitespace;
on a trimmed string this is exactly JavaScript s.split(/\s+/). -/
def splitWsRuns (s : String) : List (List Char) :=
  splitWsRunsAux s.data []

/-- The word count expression of updateDocumentContent:
content.trim() ? content.trim().split(/\s+/).length : 0. -/
def countWords (content : String) : Nat :=
  if jsTrim content = "" then 0 else (splitWsRuns (jsTrim content)).length

/-- updateDocumentContent from src/lib/canvas/updates.ts. The wall clock is
passed explicitly; createdAt := data.createdAt || now. -/
def updateDocumentContent (data : DocumentData) (content : String) (now : String) : DocumentData :=
  { data with
    content := content
    modifiedAt := some now
    wordCount := some (countWords content)
    createdAt := some (jsOrStr data.createdAt now) }

/-! ## Mutation operations (src/app/page.tsx) -/

/-- updateItem (page.tsx): replace fields of the matching item; here specialized
to the name field as used by the setItemName action handler. -/
def setItemName (st : AgentState) (itemId : String) (name : String) : AgentState :=
  { st with items := st.items.map (fun p => if p.id = itemId then { p with name := name } else p) }

/-- updateItemData (page.tsx): functionally update the data payload of the
matching item, leaving every other item untouched. -/
def updateItemData (st : AgentState) (itemId : String) (updater : DocumentData → DocumentData) : AgentState :=
  { st with items := st.items.map (fun p => if p.id = itemId then { p with data := updater p.data } else p) }

/-- setDocumentContent action handler (page.tsx): route the new content
through updateDocumentContent for the target item. -/
def setDocumentContent (st : AgentState) (itemId : String) (content : String) (now : String) : AgentState :=
  updateItemData st itemId (fun prev => updateDocumentContent prev content now)

/-- appendDocumentContent action handler (page.tsx): concatenate onto the
existing content (with an optional newline prefix) and route through
updateDocumentContent. -/
def appendDocumentContent (st : AgentState) (itemId : String) (content : String)
    (withNewline : Bool) (now : String) : AgentState :=
  updateItemData st itemId (fun prev =>
    updateDocumentContent prev (prev.content ++ (if withNewline then "\n" else "") ++ content) now)

/-- clearDocumentContent action handler (page.tsx): updateDocumentContent with "". -/
def clearDocumentContent (st : AgentState) (itemId : String) (now : String) : AgentState :=
  updateItemData st itemId (fun prev => updateDocumentContent prev "" now)

/-- deleteItem reducer (page.tsx): filter out the item and tag lastAction with
deleted:<id> when it existed, not_found:<id> otherwise. -/
def deleteItem (st : AgentState) (itemId : String) : AgentState :=
  let existed := st.items.any (fun p => p.id = itemId)
  { st with
    items := st.items.filter (fun p => p.id ≠ itemId)
    lastAction := some (if existed then "deleted:" ++ itemId else "not_found:" ++ itemId) }

/-- The deleteItem Copilot action handler (page.tsx): computes the outcome tag
from the pre-call state, applies the reducer, and returns the tag. -/
def deleteItemAction (st : AgentState) (itemId : String) : String × AgentState :=
  let existed := st.items.any (fun p => p.id = itemId)
  ((if existed then "deleted:" ++ itemId else "not_found:" ++ itemId), deleteItem st itemId)

/-- One step of the id-allocation reduce of addItem (page.tsx):
parsed = Number.parseInt(String(it.id), 10);
Number.isFinite(parsed) ? Math.max(max, parsed) : max. -/
def idMaxStep (mx : Int) (it : Item) : Int :=
  match jsParseInt it.id with
  | some parsed => max mx parsed
  | none => mx

/-- The id-allocation fold of addItem (page.tsx): the maximum over
Number.parseInt(String(it.id), 10) of the parseable ids, starting from 0;
unparsable ids are skipped. -/
def maxExistingId (items : List Item) : Int :=
  items.foldl idMaxStep 0

/-- Stated from the claim's wording for comparison with maxExistingId:
the maximum numeric value of the existing item ids with unparsable ids
treated as 0. -/
def maxNumericIdTreatUnparsableAsZero (items : List Item) : Int :=
  items.foldl (fun mx it => max mx ((jsParseInt it.id).getD 0)) 0

/-- The number addItem allocates: Math.max(itemsCreated, maxExisting) + 1. -/
def nextItemNumber (st : AgentState) : Int := max st.itemsCreated (maxExistingId st.items) + 1

/-- The stored name of a freshly created item:
name && name.trim() ? name.trim() : "". -/
def normalizedNewName (name : Option String) : String :=
  match name with
  | none => ""
  | some s => if jsTrim s = "" then "" else jsTrim s

/-- addItem (page.tsx): allocate the next id, append a default document item,
store the allocated number into itemsCreated, tag lastAction, and return the
created id. -/
def addItem (st : AgentState) (type : CardType) (name : Option String) (now : String) :
    String × AgentState :=
  let nextNumber := nextItemNumber st
  let createdId := intToId nextNumber
  let item : Item :=
    { id := createdId, type := type, name := normalizedNewName name, subtitle := ""
      data := defaultDataFor now }
  (createdId,
   { st with
     items := st.items ++ [item]
     itemsCreated := nextNumber
     lastAction := some ("created:" ++ createdId) })

/-! ## Idempotency and throttle guard (createItem handler, page.tsx) -/

/-- The single most-recent-creation record kept in lastCreationRef. -/
structure LastCreation where
  type : CardType
  name : String
  id : String
  ts : Int
  deriving DecidableEq, Repr

/-- Result of the createItem Copilot action handler: the returned id, the
canvas state after the call, and the most-recent-creation record after the call. -/
structure CreateItemResult where
  id : String
  state : AgentState
  lastCreation : Option LastCreation
  deriving DecidableEq, Repr

/-- createItem handler (page.tsx): name-based idempotency against existing
document items, then the 5000 ms single-record throttle, else a fresh addItem
recording the new creation. nowMs models Date.now(); nowIso the ISO clock. -/
def createItem (st : AgentState) (lastCreation : Option LastCreation) (name : Option String)
    (nowMs : Int) (nowIso : String) : CreateItemResult :=
  match (if jsTrim (name.getD "") ≠ "" then
      st.items.find? (fun it =>
        decide (it.type = CardType.document ∧ jsTrim it.name = jsTrim (name.getD "")))
    else none) with
  | some existing => { id := existing.id, state := st, lastCreation := lastCreation }
  | none =>
    match lastCreation with
    | some recent =>
      if recent.type = CardType.document ∧ recent.name = jsTrim (name.getD "")
          ∧ nowMs - recent.ts < 5000 then
        { id := recent.id, state := st, lastCreation := lastCreation }
      else
        { id := (addItem st CardType.document name nowIso).1
          state := (addItem st CardType.document name nowIso).2
          lastCreation := some { type := CardType.document, name := jsTrim (name.getD "")
                                 id := (addItem st CardType.document name nowIso).1, ts := nowMs } }
    | none =>
      { id := (addItem st CardType.document name nowIso).1
        state := (addItem st CardType.document name nowIso).2
        lastCreation := some { type := CardType.document, name := jsTrim (name.getD "")
                               id := (addItem st CardType.document name nowIso).1, ts := nowMs } }

/-! ## Additive import merge (importFromDoc / importFromDrive, page.tsx) -/

/-- The id-reallocation loop of the additive merge: each imported item in order
receives the next number (start + 1, start + 2, ...) as its id, keeping every
other field; mirrors importedItems.map with the ++nextNumber counter. -/
def assignNewIds (start : Int) : List Item → List Item
  | [] => []
  | item :: rest => { item with id := intToId (start + 1) } :: assignNewIds (start + 1) rest

/-- The shared additive-merge state updater of importFromDoc and importFromDrive
(the two source blocks are identical except for the lastAction suffix):
an empty import returns the previous state unchanged, otherwise imported items
are appended with freshly reallocated ids and itemsCreated becomes the last
allocated number. -/
def mergeImportedItems (st : AgentState) (importedItems : List Item) (suffix : String) : AgentState :=
  if importedItems = [] then st
  else
    let maxExisting := maxExistingId st.items
    let priorCount := st.itemsCreated
    let start := max priorCount maxExisting
    let newItems := assignNewIds start importedItems
    { st with
      items := st.items ++ newItems
      itemsCreated := start + importedItems.length
      lastAction := some ("imported:" ++ toString newItems.length ++ suffix) }

/-- The setState updater of importFromDoc (page.tsx): additive merge tagging
lastAction with imported:<n>_documents. -/
def importFromDocApply (st : AgentState) (importedItems : List Item) : AgentState :=
  mergeImportedItems st importedItems "_documents"

/-- The setState updater of importFromDrive (page.tsx): additive merge tagging
lastAction with imported:<n>_drive_files. -/
def importFromDriveApply (st : AgentState) (importedItems : List Item) : AgentState :=
  mergeImportedItems st importedItems "_drive_files"

/-! ## Destructive full-sheet import (importFromSheet, page.tsx) -/

/-- Outcome of one importFromSheet call: the canvas state afterwards and
whether the format-conflict warning modal was surfaced. -/
structure SheetImportResult where
  state : AgentState
  warningShown : Bool
  deriving DecidableEq, Repr

/-- The tail of importFromSheet once the guard has been passed or skipped:
on a successful import response the whole snapshot is replaced by the server
payload (setState(result.data)); on failure the state is left untouched. -/
def proceedSheetImport (st : AgentState) (importResp : Option AgentState) : SheetImportResult :=
  match importResp with
  | some data => { state := data, warningShown := false }
  | none => { state := st, warningShown := false }

/-- importFromSheet (page.tsx), with the two network responses as parameters:
preview is the preview_only response (none when that request failed) and
the importResp argument the import response (none when it failed). When not forcing and the
canvas is non-empty, a successful preview showing sheet items surfaces the
format warning and leaves the state unchanged; a failed preview falls through
to the destructive import. -/
def importFromSheet (st : AgentState) (forceImport : Bool) (preview : Option AgentState)
    (importResp : Option AgentState) : SheetImportResult :=
  if forceImport = false ∧ st.items ≠ [] then
    match preview with
    | some previewResult =>
      let hasCanvasFormat := st.items.any (fun item => item.type = CardType.document)
      let sheetHasData := previewResult.items ≠ []
      if hasCanvasFormat ∧ sheetHasData then { state := st, warningShown := true }
      else proceedSheetImport st importResp
    | none => proceedSheetImport st importResp
  else proceedSheetImport st importResp

/-! ## Debounced auto-export (auto-sync useEffect, page.tsx lines 59-105)

The effect runs on every snapshot change: its cleanup clears the previously
scheduled timeout and the new run schedules autoSyncToSheets 1000 ms later.
The machine below embeds that behaviour: pending holds the scheduled timers
(fire time and the snapshot captured by the closure), a change first lets any
timer already due fire and then replaces the pending timer, and a fired timer
emits an export call only when the snapshot is linked (truthy syncSheetId). -/

structure DebounceState where
  pending : List (Int × AgentState)
  exports : List AgentState
  deriving DecidableEq, Repr

/-- Let every timer due at time t fire: due timers leave pending and, for
linked snapshots, append an export call carrying the captured snapshot. -/
def fireDue (ds : DebounceState) (t : Int) : DebounceState :=
  { pending := ds.pending.filter (fun p => t < p.1)
    exports := ds.exports ++
      ((ds.pending.filter (fun p => p.1 ≤ t)).filter (fun p => jsTruthyStr p.2.syncSheetId)).map Prod.snd }

/-- A snapshot change at time t: timers already due have fired, the effect
cleanup cancels the remaining pending timer, and a single new timer for t + 1000
carrying the new snapshot is scheduled. -/
def applyChange (ds : DebounceState) (t : Int) (snap : AgentState) : DebounceState :=
  let fired := fireDue ds t
  { fired with pending := [(t + 1000, snap)] }

/-- Process a time-ordered burst of snapshot changes. -/
def runChanges : DebounceState → List (Int × AgentState) → DebounceState
  | ds, [] => ds
  | ds, (t, s) :: rest => runChanges (applyChange ds t s) rest

/-- Time passes beyond every pending timer: all of them fire. -/
def flushAll (ds : DebounceState) : DebounceState :=
  { pending := []
    exports := ds.exports ++ (ds.pending.filter (fun p => jsTruthyStr p.2.syncSheetId)).map Prod.snd }

/-- The last change of a burst (the list head is the earliest change). -/
def lastChange (c : Int × AgentState) : List (Int × AgentState) → Int × AgentState
  | [] => c
  | c2 :: rest => lastChange c2 rest

/-- Each change of the burst happens strictly less than 1000 ms after the
previous one, so each change arrives while the previous timer is still pending. -/
def gapsWithinWindow : List (Int × AgentState) → Bool
  | a :: b :: rest => decide (b.1 < a.1 + 1000) && gapsWithinWindow (b :: rest)
  | _ => true

/-! ## Concrete states used to instantiate the theorems -/

/-- A document item with empty payload, as creation would produce before edits. -/
def mkDoc (id name : String) : Item :=
  { id := id, type := CardType.document, name := name, subtitle := ""
    data := { content := "" } }

/-- Canvas with two items "0001", "0002" and counter 2
(End-to-end scenario C of the spec). -/
def twoItemState : AgentState :=
  { items := [mkDoc "0001" "A", mkDoc "0002" "B"], globalTitle := "", globalDescription := ""
    lastAction := some "", itemsCreated := 2, syncSheetId := some "" }

/-- Canvas with the single item "0001". -/
def oneItemState : AgentState :=
  { items := [mkDoc "0001" "A"], globalTitle := "", globalDescription := ""
    lastAction := some "", itemsCreated := 1, syncSheetId := some "" }

/-- Empty canvas whose counter has advanced to 5 through past creations and deletions. -/
def highCounterState : AgentState :=
  { items := [], globalTitle := "", globalDescription := ""
    lastAction := some "", itemsCreated := 5, syncSheetId := some "" }

/-- A snapshot as a full-sheet import could deliver it: one item, counter 1. -/
def lowCounterImport : AgentState :=
  { items := [mkDoc "0001" "Sheet row"], globalTitle := "Imported", globalDescription := ""
    lastAction := some "", itemsCreated := 1, syncSheetId := some "" }

/-- An item as an external document import source would deliver it, carrying
the source's own id. -/
def importedDocItem : Item :=
  { id := "9999", type := CardType.document, name := "Imported doc", subtitle := ""
    data := { content := "hello world" } }

/-- A linked snapshot (truthy syncSheetId) used for the debounce theorems. -/
def linkedSnap (title : String) : AgentState :=
  { items := [], globalTitle := title, globalDescription := ""
    lastAction := some "", itemsCreated := 0, syncSheetId := some "sheet-1" }

/-! ## Decimal digit lemmas -/

lemma digitChar_toNat (d : Nat) (hd : d < 10) : (digitChar d).toNat = 48 + d := by
  interval_cases d <;> decide

lemma digitChar_isDigit (d : Nat) (hd : d < 10) : (digitChar d).isDigit = true := by
  interval_cases d <;> decide

lemma digitChar_not_ws (d : Nat) (hd : d < 10) : (digitChar d).isWhitespace = false := by
  interval_cases d <;> decide

lemma digitChar_ne_dash (d : Nat) (hd : d < 10) : digitChar d ≠ '-' := by
  interval_cases d <;> decide

lemma digitChar_ne_plus (d : Nat) (hd : d < 10) : digitChar d ≠ '+' := by
  interval_cases d <;> decide

lemma digitChar_inj (a b : Nat) (ha : a < 10) (hb : b < 10) (h : digitChar a = digitChar b) :
    a = b := by
  have h2 := congrArg Char.toNat h
  rw [digitChar_toNat a ha, digitChar_toNat b hb] at h2
  omega

/-- Combined correctness of the fueled digit expansion: with fuel one more than
needed, the digit list is non-empty, consists of digit characters, and folds
back to the original number under the decimal accumulation step. -/
lemma natToDigitsAux_spec :
    ∀ fuel n, n < 10 ^ (fuel + 1) →
      natToDigitsAux (fuel + 1) n ≠ []
      ∧ (∀ c ∈ natToDigitsAux (fuel + 1) n, ∃ d, d < 10 ∧ c = digitChar d)
      ∧ ∀ a : Nat,
          (natToDigitsAux (fuel + 1) n).foldl (fun a c => a * 10 + (c.toNat - 48)) a
            = a * 10 ^ (natToDigitsAux (fuel + 1) n).length + n := by
  intro fuel
  induction fuel with
  | zero =>
    intro n hn
    simp only [zero_add, pow_one] at hn
    simp only [natToDigitsAux, if_pos hn]
    refine ⟨by simp, ?_, ?_⟩
    · intro c hc
      simp only [List.mem_singleton] at hc
      exact ⟨n, hn, hc⟩
    · intro a
      simp [List.foldl, digitChar_toNat n hn]
  | succ fuel ih =>
    intro n hn
    by_cases h10 : n < 10
    · simp only [natToDigitsAux, if_pos h10]
      refine ⟨by simp, ?_, ?_⟩
      · intro c hc
        simp only [List.mem_singleton] at hc
        exact ⟨n, h10, hc⟩
      · intro a
        simp [List.foldl, digitChar_toNat n h10]
    · have hdiv : n / 10 < 10 ^ (fuel + 1) := by
        rw [Nat.div_lt_iff_lt_mul (by norm_num : 0 < 10)]
        calc n < 10 ^ (fuel + 1 + 1) := hn
          _ = 10 ^ (fuel + 1) * 10 := by ring
      obtain ⟨hne, hdig, hfold⟩ := ih (n / 10) hdiv
      have hunfold : natToDigitsAux (fuel + 1 + 1) n
          = natToDigitsAux (fuel + 1) (n / 10) ++ [digitChar (n % 10)] := by
        conv_lhs => rw [natToDigitsAux]
        rw [if_neg h10]
      rw [hunfold]
      refine ⟨by simp, ?_, ?_⟩
      · intro c hc
        rcases List.mem_append.mp hc with hc1 | hc2
        · exact hdig c hc1
        · simp only [List.mem_singleton] at hc2
          exact ⟨n % 10, Nat.mod_lt n (by norm_num), hc2⟩
      · intro a
        rw [List.foldl_append, hfold a]
        simp only [List.foldl, List.length_append, List.length_singleton]
        rw [digitChar_toNat (n % 10) (Nat.mod_lt n (by norm_num))]
        have hmod := Nat.div_add_mod n 10
        have hpow : a * 10 ^ ((natToDigitsAux (fuel + 1) (n / 10)).length + 1)
            = a * 10 ^ (natToDigitsAux (fuel + 1) (n / 10)).length * 10 := by ring
        rw [hpow]
        generalize a * 10 ^ (natToDigitsAux (fuel + 1) (n / 10)).length = Y
        omega

/-- Every natural number has fewer digits than fuel n + 1 allows. -/
lemma natToDigits_fuel_ok (n : Nat) : n < 10 ^ (n + 1) := by
  calc n < 10 ^ n := Nat.lt_pow_self (by norm_num) n
    _ ≤ 10 ^ (n + 1) := Nat.pow_le_pow_right (by norm_num) (Nat.le_succ n)

lemma natToDigits_ne_nil (n : Nat) : natToDigits n ≠ [] :=
  (natToDigitsAux_spec n n (natToDigits_fuel_ok n)).1

lemma natToDigits_digitlike (n : Nat) :
    ∀ c ∈ natToDigits n, ∃ d, d < 10 ∧ c = digitChar d :=
  (natToDigitsAux_spec n n (natToDigits_fuel_ok n)).2.1

lemma parseDigitsVal_natToDigits (n : Nat) : parseDigitsVal (natToDigits n) = n := by
  have h := (natToDigitsAux_spec n n (natToDigits_fuel_ok n)).2.2 0
  simpa [parseDigitsVal, natToDigits] using h

/-! ## Parsing and padding lemmas -/

lemma foldl_replicate_zero (k : Nat) (a : Nat) :
    List.foldl (fun a c => a * 10 + (c.toNat - 48)) a (List.replicate k '0') = a * 10 ^ k := by
  induction k generalizing a with
  | zero => simp
  | succ k ih =>
    rw [List.replicate_succ, List.foldl_cons, ih]
    have : '0'.toNat - 48 = 0 := by decide
    rw [this]
    ring

lemma parseDigitsVal_padChars (cs : List Char) :
    parseDigitsVal (padChars cs) = parseDigitsVal cs := by
  unfold parseDigitsVal padChars
  rw [List.foldl_append, foldl_replicate_zero]
  simp

lemma padChars_digitlike (cs : List Char) (h : ∀ c ∈ cs, ∃ d, d < 10 ∧ c = digitChar d) :
    ∀ c ∈ padChars cs, ∃ d, d < 10 ∧ c = digitChar d := by
  intro c hc
  rcases List.mem_append.mp hc with hc1 | hc2
  · have := List.eq_of_mem_replicate hc1
    exact ⟨0, by norm_num, by rw [this]; decide⟩
  · exact h c hc2

lemma padChars_ne_nil (cs : List Char) (h : cs ≠ []) : padChars cs ≠ [] := by
  unfold padChars
  intro hcontra
  exact h (List.append_eq_nil.mp hcontra).2

lemma padChars_length (cs : List Char) : 4 ≤ (padChars cs).length := by
  unfold padChars
  rw [List.length_append, List.length_replicate]
  omega

lemma takeWhile_all {p : Char → Bool} :
    ∀ cs : List Char, (∀ c ∈ cs, p c = true) → cs.takeWhile p = cs := by
  intro cs h
  induction cs with
  | nil => rfl
  | cons c rest ih =>
    rw [List.takeWhile_cons, h c (List.mem_cons_self c rest)]
    simp only [ite_true]
    rw [ih (fun x hx => h x (List.mem_cons_of_mem c hx))]

/-- A non-empty list of decimal digit characters parses, under the JavaScript
parseInt model, to its decimal value. -/
lemma jsParseIntChars_digitlike (cs : List Char) (hne : cs ≠ [])
    (h : ∀ c ∈ cs, ∃ d, d < 10 ∧ c = digitChar d) :
    jsParseIntChars cs = some (parseDigitsVal cs : Int) := by
  cases cs with
  | nil => exact absurd rfl hne
  | cons c rest =>
    obtain ⟨d, hd, hcd⟩ := h c (List.mem_cons_self c rest)
    have hnws : c.isWhitespace = false := by rw [hcd]; exact digitChar_not_ws d hd
    have hdash : ¬ c = '-' := by rw [hcd]; exact digitChar_ne_dash d hd
    have hplus : ¬ c = '+' := by rw [hcd]; exact digitChar_ne_plus d hd
    have hdigits : ∀ x ∈ c :: rest, x.isDigit = true := by
      intro x hx
      obtain ⟨e, he, hxe⟩ := h x hx
      rw [hxe]
      exact digitChar_isDigit e he
    unfold jsParseIntChars
    rw [List.dropWhile_cons, hnws]
    simp only [Bool.false_eq_true, ite_false, if_neg hdash, if_neg hplus]
    unfold parseDigits
    rw [takeWhile_all (c :: rest) hdigits]
    simp

/-- Round trip: the id string allocated for a non-negative number parses back to
that number under the JavaScript parseInt model. -/
lemma jsParseInt_intToId (n : Int) (h : 0 ≤ n) : jsParseInt (intToId n) = some n := by
  have hneg : ¬ n < 0 := not_lt.mpr h
  have hchars : (intToId n).data = padChars (natToDigits n.natAbs) := by
    simp [intToId, jsStringOfIntChars, if_neg hneg]
  unfold jsParseInt
  rw [hchars]
  rw [jsParseIntChars_digitlike _ (padChars_ne_nil _ (natToDigits_ne_nil _))
      (padChars_digitlike _ (natToDigits_digitlike _))]
  rw [parseDigitsVal_padChars, parseDigitsVal_natToDigits]
  rw [Int.natAbs_of_nonneg h]

lemma intToId_inj (a b : Int) (ha : 0 ≤ a) (hb : 0 ≤ b) (h : intToId a = intToId b) :
    a = b := by
  have h2 : jsParseInt (intToId a) = jsParseInt (intToId b) := by rw [h]
  rw [jsParseInt_intToId a ha, jsParseInt_intToId b hb] at h2
  exact Option.some.inj h2

lemma intToId_length (n : Int) : 4 ≤ (intToId n).length := by
  have : (intToId n).length = (padChars (jsStringOfIntChars n)).length := rfl
  rw [this]
  exact padChars_length _

lemma intToId_digits (n : Int) (h : 0 ≤ n) : ∀ c ∈ (intToId n).data, c.isDigit = true := by
  have hneg : ¬ n < 0 := not_lt.mpr h
  have hchars : (intToId n).data = padChars (natToDigits n.natAbs) := by
    simp [intToId, jsStringOfIntChars, if_neg hneg]
  rw [hchars]
  intro c hc
  obtain ⟨d, hd, hcd⟩ := padChars_digitlike _ (natToDigits_digitlike _) c hc
  rw [hcd]
  exact digitChar_isDigit d hd

/-! ## Id allocation lemmas -/

lemma le_idMaxStep (a : Int) (it : Item) : a ≤ idMaxStep a it := by
  unfold idMaxStep
  cases jsParseInt it.id with
  | none => exact le_refl a
  | some k => exact le_max_left a k

lemma foldl_idMaxStep_ge : ∀ (l : List Item) (a : Int), a ≤ List.foldl idMaxStep a l := by
  intro l
  induction l with
  | nil => intro a; exact le_refl a
  | cons hd tl ih =>
    intro a
    rw [List.foldl_cons]
    exact le_trans (le_idMaxStep a hd) (ih (idMaxStep a hd))

lemma foldl_idMaxStep_bound :
    ∀ (l : List Item) (a : Int) (it : Item), it ∈ l →
      ∀ k, jsParseInt it.id = some k → k ≤ List.foldl idMaxStep a l := by
  intro l
  induction l with
  | nil => intro a it hit; exact absurd hit (List.not_mem_nil it)
  | cons hd tl ih =>
    intro a it hit k hk
    rw [List.foldl_cons]
    rcases List.mem_cons.mp hit with heq | hmem
    · subst heq
      have hstep : k ≤ idMaxStep a it := by
        unfold idMaxStep
        rw [hk]
        exact le_max_right a k
      exact le_trans hstep (foldl_idMaxStep_ge tl (idMaxStep a it))
    · exact ih (idMaxStep a hd) it hmem k hk

lemma maxExistingId_nonneg (l : List Item) : 0 ≤ maxExistingId l :=
  foldl_idMaxStep_ge l 0

lemma maxExistingId_bound (l : List Item) (it : Item) (hit : it ∈ l) (k : Int)
    (hk : jsParseInt it.id = some k) : k ≤ maxExistingId l :=
  foldl_idMaxStep_bound l 0 it hit k hk

/-- A freshly allocated id is distinct from the id of every item already present. -/
lemma fresh_id_ne (l : List Item) (m : Int) (hm : maxExistingId l < m) (hm0 : 0 ≤ m)
    (it : Item) (hit : it ∈ l) : it.id ≠ intToId m := by
  intro heq
  have hparse : jsParseInt it.id = some m := by rw [heq]; exact jsParseInt_intToId m hm0
  exact absurd (maxExistingId_bound l it hit m hparse) (not_le.mpr hm)

/-- The skipping reduce of the source coincides with the claim's reading of the
same computation, in which an unparsable id contributes the value 0. -/
lemma foldl_treatZero_eq :
    ∀ (l : List Item) (a : Int), 0 ≤ a →
      List.foldl idMaxStep a l = List.foldl (fun mx it => max mx ((jsParseInt it.id).getD 0)) a l := by
  intro l
  induction l with
  | nil => intro a _; rfl
  | cons hd tl ih =>
    intro a ha
    rw [List.foldl_cons, List.foldl_cons]
    have hstep : idMaxStep a hd = max a ((jsParseInt hd.id).getD 0) := by
      unfold idMaxStep
      cases jsParseInt hd.id with
      | none => simp [max_eq_left ha]
      | some k => simp
    rw [hstep]
    exact ih (max a ((jsParseInt hd.id).getD 0)) (le_trans ha (le_max_left _ _))

lemma maxExistingId_eq_treatZero (l : List Item) :
    maxExistingId l = maxNumericIdTreatUnparsableAsZero l :=
  foldl_treatZero_eq l 0 (le_refl 0)

/-! ## Reallocation lemmas for the additive merge -/

lemma assignNewIds_length : ∀ (l : List Item) (s : Int), (assignNewIds s l).length = l.length := by
  intro l
  induction l with
  | nil => intro s; rfl
  | cons hd tl ih =>
    intro s
    simp [assignNewIds, ih]

lemma assignNewIds_shape :
    ∀ (l : List Item) (s : Int), ∀ x ∈ assignNewIds s l,
      ∃ j : Int, s < j ∧ j ≤ s + l.length ∧ x.id = intToId j := by
  intro l
  induction l with
  | nil => intro s x hx; exact absurd hx (List.not_mem_nil x)
  | cons hd tl ih =>
    intro s x hx
    rcases List.mem_cons.mp hx with heq | hmem
    · refine ⟨s + 1, by omega, by simp only [List.length_cons]; push_cast; omega, ?_⟩
      rw [heq]
    · obtain ⟨j, hj1, hj2, hj3⟩ := ih (s + 1) x hmem
      refine ⟨j, by omega, ?_, hj3⟩
      simp only [List.length_cons]
      push_cast
      omega

lemma assignNewIds_fields :
    ∀ (l : List Item) (s : Int),
      (assignNewIds s l).map (fun x => (x.type, x.name, x.subtitle, x.data))
        = l.map (fun x => (x.type, x.name, x.subtitle, x.data)) := by
  intro l
  induction l with
  | nil => intro s; rfl
  | cons hd tl ih =>
    intro s
    simp [assignNewIds, ih]

lemma assignNewIds_pairwise :
    ∀ (l : List Item) (s : Int), 0 ≤ s →
      List.Pairwise (fun a b : Item => a.id ≠ b.id) (assignNewIds s l) := by
  intro l
  induction l with
  | nil => intro s _; exact List.Pairwise.nil
  | cons hd tl ih =>
    intro s hs
    simp only [assignNewIds]
    refine List.Pairwise.cons ?_ (ih (s + 1) (by omega))
    intro x hx heq
    obtain ⟨j, hj1, _, hj3⟩ := assignNewIds_shape tl (s + 1) x hx
    rw [hj3] at heq
    have := intToId_inj (s + 1) j (by omega) (by omega) heq
    omega

lemma assignNewIds_last :
    ∀ (l : List Item) (s : Int), l ≠ [] →
      ∃ x ∈ assignNewIds s l, x.id = intToId (s + l.length) := by
  intro l
  induction l with
  | nil => intro s h; exact absurd rfl h
  | cons hd tl ih =>
    intro s _
    by_cases htl : tl = []
    · subst htl
      exact ⟨{ hd with id := intToId (s + 1) }, List.mem_cons_self _ _, by simp⟩
    · obtain ⟨x, hx, hxid⟩ := ih (s + 1) htl
      refine ⟨x, List.mem_cons_of_mem _ hx, ?_⟩
      rw [hxid]
      congr 1
      simp only [List.length_cons]
      push_cast
      ring

/-! ## Debounce machine lemmas -/

lemma lastChange_cons (c c2 : Int × AgentState) (rest : List (Int × AgentState)) :
    lastChange c (c2 :: rest) = lastChange c2 rest := rfl

/-- After processing a non-empty burst, exactly one timer is pending and it
carries the latest snapshot, no matter what was pending before. -/
lemma runChanges_pending :
    ∀ (rest : List (Int × AgentState)) (ds : DebounceState) (t : Int) (s : AgentState),
      (runChanges ds ((t, s) :: rest)).pending
        = [((lastChange (t, s) rest).1 + 1000, (lastChange (t, s) rest).2)] := by
  intro rest
  induction rest with
  | nil => intro ds t s; rfl
  | cons c2 rest2 ih =>
    intro ds t s
    cases c2 with
    | mk t2 s2 =>
      rw [show runChanges ds ((t, s) :: (t2, s2) :: rest2)
            = runChanges (applyChange ds t s) ((t2, s2) :: rest2) from rfl]
      rw [ih (applyChange ds t s) t2 s2]
      rfl

/-- While the gaps between consecutive changes stay below the 1000 ms window,
no pending timer ever fires: export calls are not emitted during the burst. -/
lemma runChanges_burst_exports :
    ∀ (rest : List (Int × AgentState)) (t : Int) (s : AgentState) (E : List AgentState),
      gapsWithinWindow ((t, s) :: rest) = true →
      (runChanges { pending := [(t + 1000, s)], exports := E } rest).exports = E := by
  intro rest
  induction rest with
  | nil => intro t s E _; rfl
  | cons c2 rest2 ih =>
    intro t s E hchain
    cases c2 with
    | mk t2 s2 =>
      rw [gapsWithinWindow, Bool.and_eq_true, decide_eq_true_eq] at hchain
      have hgap : t2 < t + 1000 := hchain.1
      have hchain2 : gapsWithinWindow ((t2, s2) :: rest2) = true := hchain.2
      have hstep : applyChange { pending := [(t + 1000, s)], exports := E } t2 s2
          = { pending := [(t2 + 1000, s2)], exports := E } := by
        unfold applyChange fireDue
        simp only
        congr 1
        have hfilter : [(t + 1000, s)].filter (fun p : Int × AgentState => p.1 ≤ t2) = [] := by
          simp [List.filter, decide_eq_true_eq, not_le.mpr hgap]
        rw [hfilter]
        simp
      rw [show runChanges { pending := [(t + 1000, s)], exports := E } ((t2, s2) :: rest2)
            = runChanges (applyChange { pending := [(t + 1000, s)], exports := E } t2 s2) rest2 from rfl]
      rw [hstep]
      exact ih t2 s2 E hchain2

/-! ## Shared lemmas about the item-targeted update path -/

/-- Any item of the updated list carrying the target id is the functional
update of an original item carrying that id. -/
lemma mem_updateItemData (st : AgentState) (itemId : String) (u : DocumentData → DocumentData) :
    ∀ x ∈ (updateItemData st itemId u).items, x.id = itemId →
      ∃ p ∈ st.items, p.id = itemId ∧ x = { p with data := u p.data } := by
  intro x hx hid
  obtain ⟨p, hp, hpx⟩ := List.mem_map.mp hx
  by_cases hpid : p.id = itemId
  · rw [if_pos hpid] at hpx
    exact ⟨p, hp, hpid, hpx.symm⟩
  · rw [if_neg hpid] at hpx
    rw [← hpx] at hid
    exact absurd hid hpid

/-- The target item survives an item-targeted update, with the same id. -/
lemma exists_mem_updateItemData (st : AgentState) (itemId : String)
    (u : DocumentData → DocumentData) (h : ∃ it ∈ st.items, it.id = itemId) :
    ∃ x ∈ (updateItemData st itemId u).items, x.id = itemId := by
  obtain ⟨it, hit, hitid⟩ := h
  refine ⟨{ it with data := u it.data }, ?_, hitid⟩
  apply List.mem_map.mpr
  exact ⟨it, hit, by rw [if_pos hitid]⟩

/-! ## Claim theorems -/

/-- C10: an additive import whose source converts to zero items is a complete
no-op: the previous canvas state is returned unchanged, for both the Google Doc
and the Google Drive path. -/
theorem c10_empty_additive_import_is_noop (st : AgentState) :
    importFromDocApply st [] = st ∧ importFromDriveApply st [] = st :=
  ⟨rfl, rfl⟩

/-- C7: after setContent(id, s) the targeted item's wordCount equals
countWords s, which is 0 when s trims to empty and the number of tokens of the
trimmed content split on whitespace runs otherwise; the derived count is also
consistent with the stored content after appendContent and clearContent, which
route through the same updater; and the targeted item is still present. -/
theorem c7_word_count_consistency (st : AgentState) (itemId s now : String) (b : Bool) :
    (∀ x ∈ (setDocumentContent st itemId s now).items, x.id = itemId →
        x.data.content = s ∧ x.data.wordCount = some (countWords s))
    ∧ (jsTrim s = "" → countWords s = 0)
    ∧ (jsTrim s ≠ "" → countWords s = (splitWsRuns (jsTrim s)).length)
    ∧ (∀ x ∈ (appendDocumentContent st itemId s b now).items, x.id = itemId →
        x.data.wordCount = some (countWords x.data.content))
    ∧ (∀ x ∈ (clearDocumentContent st itemId now).items, x.id = itemId →
        x.data.wordCount = some (countWords x.data.content))
    ∧ ((∃ it ∈ st.items, it.id = itemId) →
        ∃ x ∈ (setDocumentContent st itemId s now).items, x.id = itemId) := by
  refine ⟨?_, ?_, ?_, ?_, ?_, ?_⟩
  · intro x hx hid
    obtain ⟨p, _, _, hxeq⟩ := mem_updateItemData st itemId _ x hx hid
    rw [hxeq]
    exact ⟨rfl, rfl⟩
  · intro h
    rw [countWords, if_pos h]
  · intro h
    rw [countWords, if_neg h]
  · intro x hx hid
    obtain ⟨p, _, _, hxeq⟩ := mem_updateItemData st itemId _ x hx hid
    rw [hxeq]
    rfl
  · intro x hx hid
    obtain ⟨p, _, _, hxeq⟩ := mem_updateItemData st itemId _ x hx hid
    rw [hxeq]
    rfl
  · exact exists_mem_updateItemData st itemId _

/-- C7 witness: instantiated on a concrete canvas and content. -/
theorem c7_word_count_consistency_witness :
    (∃ it ∈ oneItemState.items, it.id = "0001")
    ∧ ∀ x ∈ (setDocumentContent oneItemState "0001" "hello world" "T1").items,
        x.id = "0001" → x.data.content = "hello world" ∧ x.data.wordCount = some (countWords "hello world") :=
  ⟨⟨mkDoc "0001" "A", by decide, by decide⟩,
   (c7_word_count_consistency oneItemState "0001" "hello world" "T1" false).1⟩

/-- C3: create allocates the number max(itemsCreated, max numeric id with
unparsable ids treated as 0) + 1, returns it as a zero-padded decimal string of
at least four digit characters, stores it into itemsCreated, and the allocated
number strictly exceeds the prior counter and every numeric id present, so the
allocated id differs from every present id; deleting the highest-numbered item
of the two-item canvas and creating again yields "0003", never "0002". -/
theorem c3_create_allocates_monotone_id :
    (∀ (st : AgentState) (ty : CardType) (name : Option String) (now : String),
      (addItem st ty name now).1 = intToId (nextItemNumber st)
      ∧ (addItem st ty name now).2.itemsCreated = nextItemNumber st
      ∧ nextItemNumber st = max st.itemsCreated (maxNumericIdTreatUnparsableAsZero st.items) + 1
      ∧ st.itemsCreated < nextItemNumber st
      ∧ (∀ it ∈ st.items, ∀ k, jsParseInt it.id = some k → k < nextItemNumber st)
      ∧ 4 ≤ (addItem st ty name now).1.length
      ∧ (∀ c ∈ (addItem st ty name now).1.data, c.isDigit = true)
      ∧ jsParseInt (addItem st ty name now).1 = some (nextItemNumber st)
      ∧ (∀ it ∈ st.items, it.id ≠ (addItem st ty name now).1))
    ∧ ((deleteItem twoItemState "0002").items.map Item.id = ["0001"]
      ∧ (deleteItem twoItemState "0002").itemsCreated = 2
      ∧ (addItem (deleteItem twoItemState "0002") CardType.document none "T").1 = "0003") := by
  constructor
  · intro st ty name now
    have hmax0 : 0 ≤ maxExistingId st.items := maxExistingId_nonneg st.items
    have hnext_pos : 0 ≤ nextItemNumber st := by
      unfold nextItemNumber
      have := le_max_right st.itemsCreated (maxExistingId st.items)
      omega
    refine ⟨rfl, rfl, ?_, ?_, ?_, ?_, ?_, ?_, ?_⟩
    · rw [nextItemNumber, maxExistingId_eq_treatZero]
    · unfold nextItemNumber
      have := le_max_left st.itemsCreated (maxExistingId st.items)
      omega
    · intro it hit k hk
      have hb := maxExistingId_bound st.items it hit k hk
      unfold nextItemNumber
      have := le_max_right st.itemsCreated (maxExistingId st.items)
      omega
    · exact intToId_length (nextItemNumber st)
    · exact intToId_digits (nextItemNumber st) hnext_pos
    · exact jsParseInt_intToId (nextItemNumber st) hnext_pos
    · intro it hit
      apply fresh_id_ne st.items (nextItemNumber st) ?_ hnext_pos it hit
      unfold nextItemNumber
      have := le_max_right st.itemsCreated (maxExistingId st.items)
      omega
  · refine ⟨by decide, by decide, by decide⟩

/-- C3 witness: the general allocation facts instantiated on the concrete
two-item canvas evaluate to the expected id. -/
theorem c3_create_allocates_monotone_id_witness :
    (addItem twoItemState CardType.document none "T").1 = intToId (nextItemNumber twoItemState)
    ∧ intToId (nextItemNumber twoItemState) = "0003" := by
  refine ⟨(c3_create_allocates_monotone_id.1 twoItemState CardType.document none "T").1, by decide⟩

/-- C1 (amended): an additive import of N ≥ 1 converted items into a canvas of
M items appends them in order with freshly reallocated ids: the result has
M + N items, the M originals are kept unchanged in place, every new id differs
from every original id and the new ids are pairwise distinct, itemsCreated
becomes the highest allocated number, the non-id fields of the imported items
are kept, and lastAction is imported:<n>_documents for the Google Doc path
and imported:<n>_drive_files for the Google Drive path. -/
theorem c1_additive_import_appends_fresh_ids :
    ∀ (st : AgentState) (imported : List Item), imported ≠ [] →
      (importFromDocApply st imported).items.length = st.items.length + imported.length
      ∧ (importFromDocApply st imported).items.take st.items.length = st.items
      ∧ (∀ x ∈ (importFromDocApply st imported).items.drop st.items.length,
          ∀ y ∈ st.items, x.id ≠ y.id)
      ∧ List.Pairwise (fun a b : Item => a.id ≠ b.id)
          ((importFromDocApply st imported).items.drop st.items.length)
      ∧ (importFromDocApply st imported).itemsCreated
          = max st.itemsCreated (maxExistingId st.items) + imported.length
      ∧ (∃ x ∈ (importFromDocApply st imported).items.drop st.items.length,
          jsParseInt x.id = some ((importFromDocApply st imported).itemsCreated))
      ∧ (∀ x ∈ (importFromDocApply st imported).items.drop st.items.length,
          ∀ k, jsParseInt x.id = some k → k ≤ (importFromDocApply st imported).itemsCreated)
      ∧ ((importFromDocApply st imported).items.drop st.items.length).map
            (fun x => (x.type, x.name, x.subtitle, x.data))
          = imported.map (fun x => (x.type, x.name, x.subtitle, x.data))
      ∧ (importFromDocApply st imported).lastAction
          = some ("imported:" ++ toString imported.length ++ "_documents")
      ∧ importFromDriveApply st imported
          = { importFromDocApply st imported with
              lastAction := some ("imported:" ++ toString imported.length ++ "_drive_files") } := by
  intro st imported hne
  have h0 : 0 ≤ max st.itemsCreated (maxExistingId st.items) := by
    have := maxExistingId_nonneg st.items
    have := le_max_right st.itemsCreated (maxExistingId st.items)
    omega
  have hitems : (importFromDocApply st imported).items
      = st.items ++ assignNewIds (max st.itemsCreated (maxExistingId st.items)) imported := by
    unfold importFromDocApply mergeImportedItems
    rw [if_neg hne]
  have hic : (importFromDocApply st imported).itemsCreated
      = max st.itemsCreated (maxExistingId st.items) + imported.length := by
    unfold importFromDocApply mergeImportedItems
    rw [if_neg hne]
  have hdrop : (importFromDocApply st imported).items.drop st.items.length
      = assignNewIds (max st.itemsCreated (maxExistingId st.items)) imported := by
    rw [hitems]
    exact List.drop_left _ _
  refine ⟨?_, ?_, ?_, ?_, hic, ?_, ?_, ?_, ?_, ?_⟩
  · rw [hitems, List.length_append, assignNewIds_length]
  · rw [hitems]
    exact List.take_left _ _
  · intro x hx y hy
    rw [hdrop] at hx
    obtain ⟨j, hj1, _, hj3⟩ := assignNewIds_shape imported _ x hx
    have hlt : maxExistingId st.items < j := by
      have := le_max_right st.itemsCreated (maxExistingId st.items)
      omega
    rw [hj3]
    intro heq
    exact fresh_id_ne st.items j hlt (by omega) y hy heq.symm
  · rw [hdrop]
    exact assignNewIds_pairwise imported _ h0
  · obtain ⟨x, hx, hxid⟩ := assignNewIds_last imported _ hne
    refine ⟨x, by rw [hdrop]; exact hx, ?_⟩
    rw [hxid, hic]
    exact jsParseInt_intToId _ (by have := Int.natCast_nonneg imported.length; omega)
  · intro x hx k hk
    rw [hdrop] at hx
    obtain ⟨j, hj1, hj2, hj3⟩ := assignNewIds_shape imported _ x hx
    rw [hj3, jsParseInt_intToId j (by omega)] at hk
    have hkj : k = j := (Option.some.inj hk).symm
    rw [hic]
    omega
  · rw [hdrop]
    exact assignNewIds_fields imported _
  · unfold importFromDocApply mergeImportedItems
    rw [if_neg hne]
    simp only [assignNewIds_length]
  · unfold importFromDriveApply importFromDocApply mergeImportedItems
    rw [if_neg hne, if_neg hne]
    simp only [assignNewIds_length]

/-- C1 counterexample: the Drive additive import tags lastAction with the
value imported:1_drive_files, not imported:1_documents as the claim states
for the Drive path. -/
theorem c1_drive_import_tag_counterexample :
    (importFromDriveApply oneItemState [importedDocItem]).lastAction = some "imported:1_drive_files"
    ∧ (importFromDriveApply oneItemState [importedDocItem]).lastAction ≠ some "imported:1_documents" :=
  ⟨by decide, by decide⟩

/-- C1 witness: the merge facts instantiated on a one-item canvas and a
one-item import source. -/
theorem c1_additive_import_appends_fresh_ids_witness :
    ([importedDocItem] ≠ ([] : List Item))
    ∧ (importFromDocApply oneItemState [importedDocItem]).items.length
        = oneItemState.items.length + [importedDocItem].length
    ∧ (importFromDocApply oneItemState [importedDocItem]).items.take oneItemState.items.length
        = oneItemState.items :=
  ⟨by decide,
   (c1_additive_import_appends_fresh_ids oneItemState [importedDocItem] (by decide)).1,
   (c1_additive_import_appends_fresh_ids oneItemState [importedDocItem] (by decide)).2.1⟩

/-- Canvas items are always document-typed, so a non-empty canvas always has
canvas format in the sense of the importFromSheet guard. -/
lemma items_any_document (l : List Item) (h : l ≠ []) :
    l.any (fun item => item.type = CardType.document) = true := by
  cases l with
  | nil => exact absurd rfl h
  | cons hd tl =>
    have hhd : hd.type = CardType.document := by cases hd.type; rfl
    simp [List.any_cons, hhd]

/-- C2 (amended): when the preview request succeeds, a non-forced full-sheet
destructive load into a non-empty canvas whose sheet also contains items surfaces the
replace-vs-keep warning and leaves the canvas unchanged; only the explicit
forced replace (the user's "replace" decision) swaps in the imported snapshot,
without a further warning. When the preview request fails, the code falls
through to the destructive import instead of surfacing the decision. -/
theorem c2_format_conflict_guard (st pv d : AgentState) (resp : Option AgentState) :
    (st.items ≠ [] → pv.items ≠ [] →
      importFromSheet st false (some pv) resp = { state := st, warningShown := true })
    ∧ (importFromSheet st true (some pv) (some d)).state = d
    ∧ (importFromSheet st true (some pv) (some d)).warningShown = false
    ∧ (importFromSheet st true none (some d)).state = d := by
  have hforce : ¬ (true = false ∧ st.items ≠ []) := by
    intro hcontra
    exact Bool.noConfusion hcontra.1
  refine ⟨?_, ?_, ?_, ?_⟩
  · intro h1 h2
    unfold importFromSheet
    rw [if_pos ⟨rfl, h1⟩]
    show (if (st.items.any fun item => item.type = CardType.document) = true ∧ pv.items ≠ []
        then { state := st, warningShown := true }
        else proceedSheetImport st resp) = { state := st, warningShown := true }
    rw [if_pos ⟨items_any_document st.items h1, h2⟩]
  · unfold importFromSheet
    rw [if_neg hforce]
    rfl
  · unfold importFromSheet
    rw [if_neg hforce]
    rfl
  · unfold importFromSheet
    rw [if_neg hforce]
    rfl

/-- C2 counterexample: with a non-empty canvas and a sheet that does contain
items, a failed preview request makes the non-forced import replace the whole
snapshot silently: no warning is surfaced and the local items are discarded,
contradicting the claim that this path never silently discards local data. -/
theorem c2_preview_failure_silent_replace_counterexample :
    twoItemState.items ≠ []
    ∧ lowCounterImport.items ≠ []
    ∧ importFromSheet twoItemState false none (some lowCounterImport)
        = { state := lowCounterImport, warningShown := false }
    ∧ lowCounterImport ≠ twoItemState :=
  ⟨by decide, by decide, by decide, by decide⟩

/-- C2 witness: the guard and the forced replace instantiated on the concrete
two-item canvas. -/
theorem c2_format_conflict_guard_witness :
    twoItemState.items ≠ []
    ∧ lowCounterImport.items ≠ []
    ∧ importFromSheet twoItemState false (some lowCounterImport) (some lowCounterImport)
        = { state := twoItemState, warningShown := true }
    ∧ (importFromSheet twoItemState true (some lowCounterImport) (some lowCounterImport)).state
        = lowCounterImport := by
  have h := c2_format_conflict_guard twoItemState lowCounterImport lowCounterImport
      (some lowCounterImport)
  exact ⟨by decide, by decide, h.1 (by decide) (by decide), h.2.1⟩

/-- C4 (amended): itemsCreated strictly increases on create and is preserved by
delete, rename and the content mutations; the additive merges never decrease
it; but the destructive full-sheet import either leaves the state untouched or
replaces the whole snapshot with the imported payload, whose counter is not
related to the previous one. -/
theorem c4_counter_monotone_per_operation :
    (∀ (st : AgentState) (ty : CardType) (nm : Option String) (nowIso : String),
        st.itemsCreated < (addItem st ty nm nowIso).2.itemsCreated)
    ∧ (∀ (st : AgentState) (itemId : String), (deleteItem st itemId).itemsCreated = st.itemsCreated)
    ∧ (∀ (st : AgentState) (itemId nm : String), (setItemName st itemId nm).itemsCreated = st.itemsCreated)
    ∧ (∀ (st : AgentState) (itemId content nowIso : String),
        (setDocumentContent st itemId content nowIso).itemsCreated = st.itemsCreated)
    ∧ (∀ (st : AgentState) (itemId content nowIso : String) (b : Bool),
        (appendDocumentContent st itemId content b nowIso).itemsCreated = st.itemsCreated)
    ∧ (∀ (st : AgentState) (itemId nowIso : String),
        (clearDocumentContent st itemId nowIso).itemsCreated = st.itemsCreated)
    ∧ (∀ (st : AgentState) (l : List Item),
        st.itemsCreated ≤ (importFromDocApply st l).itemsCreated
        ∧ st.itemsCreated ≤ (importFromDriveApply st l).itemsCreated)
    ∧ (∀ (st : AgentState) (force : Bool) (preview resp : Option AgentState),
        (importFromSheet st force preview resp).state = st
        ∨ resp = some (importFromSheet st force preview resp).state) := by
  have hmerge : ∀ (st : AgentState) (l : List Item) (suffix : String),
      st.itemsCreated ≤ (mergeImportedItems st l suffix).itemsCreated := by
    intro st l suffix
    by_cases hl : l = []
    · subst hl
      exact le_of_eq rfl
    · unfold mergeImportedItems
      rw [if_neg hl]
      show st.itemsCreated ≤ max st.itemsCreated (maxExistingId st.items) + l.length
      have h1 := le_max_left st.itemsCreated (maxExistingId st.items)
      have h2 := Int.natCast_nonneg l.length
      omega
  have hproceed : ∀ (st : AgentState) (resp : Option AgentState),
      (proceedSheetImport st resp).state = st ∨ resp = some (proceedSheetImport st resp).state := by
    intro st resp
    cases resp with
    | none => exact Or.inl rfl
    | some d => exact Or.inr rfl
  refine ⟨?_, ?_, ?_, ?_, ?_, ?_, ?_, ?_⟩
  · intro st ty nm nowIso
    show st.itemsCreated < nextItemNumber st
    unfold nextItemNumber
    have := le_max_left st.itemsCreated (maxExistingId st.items)
    omega
  · intro st itemId
    rfl
  · intro st itemId nm
    rfl
  · intro st itemId content nowIso
    rfl
  · intro st itemId content nowIso b
    rfl
  · intro st itemId nowIso
    rfl
  · intro st l
    exact ⟨hmerge st l "_documents", hmerge st l "_drive_files"⟩
  · intro st force preview resp
    unfold importFromSheet
    by_cases hcond : force = false ∧ st.items ≠ []
    · rw [if_pos hcond]
      cases preview with
      | none => exact hproceed st resp
      | some pv =>
        show (if (st.items.any fun item => item.type = CardType.document) = true ∧ pv.items ≠ []
              then { state := st, warningShown := true }
              else proceedSheetImport st resp).state = st
          ∨ resp = some (if (st.items.any fun item => item.type = CardType.document) = true ∧ pv.items ≠ []
              then { state := st, warningShown := true }
              else proceedSheetImport st resp).state
        by_cases hguard : (st.items.any fun item => item.type = CardType.document) = true ∧ pv.items ≠ []
        · rw [if_pos hguard]
          exact Or.inl rfl
        · rw [if_neg hguard]
          exact hproceed st resp
    · rw [if_neg hcond]
      exact hproceed st resp

/-- C4 counterexample: the destructive full-sheet replace lowers itemsCreated
from 5 to 1 on a canvas whose items were all deleted, refuting non-decrease
across the destructive import path. -/
theorem c4_destructive_replace_decreases_counter :
    highCounterState.itemsCreated = 5
    ∧ (importFromSheet highCounterState false (some lowCounterImport) (some lowCounterImport)).state.itemsCreated = 1
    ∧ (importFromSheet highCounterState false (some lowCounterImport) (some lowCounterImport)).state.itemsCreated
        < highCounterState.itemsCreated :=
  ⟨by decide, by decide, by decide⟩

/-- C4 witness: monotonicity facts instantiated on the two-item canvas. -/
theorem c4_counter_monotone_per_operation_witness :
    twoItemState.itemsCreated < (addItem twoItemState CardType.document none "T").2.itemsCreated
    ∧ ((importFromSheet twoItemState true none (some lowCounterImport)).state = twoItemState
        ∨ (some lowCounterImport : Option AgentState)
            = some (importFromSheet twoItemState true none (some lowCounterImport)).state) :=
  ⟨c4_counter_monotone_per_operation.1 twoItemState CardType.document none "T",
   c4_counter_monotone_per_operation.2.2.2.2.2.2.2 twoItemState true none (some lowCounterImport)⟩

/-- C5 (amended): the createItem handler first applies name-based idempotency
(a non-empty trimmed name matching an existing document returns that item's id
and changes nothing), then the single-record 5000 ms throttle (a matching
most-recent-creation record younger than 5000 ms returns the recorded id and
changes nothing); two create("document", "Report") calls within 5000 ms return
the same id, and a call made after the match has been renamed away and more
than 5000 ms after the recorded creation returns a new id. -/
theorem c5_create_idempotency_throttle :
    (∀ (st : AgentState) (lc : Option LastCreation) (nm : Option String) (nowMs : Int)
        (nowIso : String) (ex : Item),
      jsTrim (nm.getD "") ≠ "" →
      st.items.find? (fun it =>
          decide (it.type = CardType.document ∧ jsTrim it.name = jsTrim (nm.getD ""))) = some ex →
      createItem st lc nm nowMs nowIso = { id := ex.id, state := st, lastCreation := lc })
    ∧ (∀ (st : AgentState) (recent : LastCreation) (nm : Option String) (nowMs : Int)
        (nowIso : String),
      (jsTrim (nm.getD "") = "" ∨
        st.items.find? (fun it =>
            decide (it.type = CardType.document ∧ jsTrim it.name = jsTrim (nm.getD ""))) = none) →
      recent.type = CardType.document → recent.name = jsTrim (nm.getD "") →
      nowMs - recent.ts < 5000 →
      createItem st (some recent) nm nowMs nowIso
        = { id := recent.id, state := st, lastCreation := some recent })
    ∧ ((createItem (createItem initialState none (some "Report") 0 "T0").state
          (createItem initialState none (some "Report") 0 "T0").lastCreation
          (some "Report") 4000 "T1").id
        = (createItem initialState none (some "Report") 0 "T0").id
      ∧ (createItem (createItem initialState none (some "Report") 0 "T0").state
          (createItem initialState none (some "Report") 0 "T0").lastCreation
          (some "Report") 4000 "T1").state
        = (createItem initialState none (some "Report") 0 "T0").state)
    ∧ ((createItem (setItemName (createItem initialState none (some "Report") 0 "T0").state
            "0001" "Other")
          (createItem initialState none (some "Report") 0 "T0").lastCreation
          (some "Report") 6000 "T2").id = "0002"
      ∧ (createItem (setItemName (createItem initialState none (some "Report") 0 "T0").state
            "0001" "Other")
          (createItem initialState none (some "Report") 0 "T0").lastCreation
          (some "Report") 6000 "T2").id
        ≠ (createItem initialState none (some "Report") 0 "T0").id) := by
  refine ⟨?_, ?_, ⟨by decide, by decide⟩, ⟨by decide, by decide⟩⟩
  · intro st lc nm nowMs nowIso ex h1 hfind
    unfold createItem
    rw [if_pos h1, hfind]
  · intro st recent nm nowMs nowIso h1 htype hname htime
    unfold createItem
    have hnone : (if jsTrim (nm.getD "") ≠ "" then
        st.items.find? (fun it =>
          decide (it.type = CardType.document ∧ jsTrim it.name = jsTrim (nm.getD "")))
        else none) = none := by
      rcases h1 with hempty | hfindnone
      · rw [if_neg (fun hc => hc hempty)]
      · by_cases hnorm : jsTrim (nm.getD "") ≠ ""
        · rw [if_pos hnorm, hfindnone]
        · rw [if_neg hnorm]
    rw [hnone]
    exact if_pos ⟨htype, hname, htime⟩

/-- C5 counterexample: 6000 ms after creating "Report", with no rename, a
further create("document", "Report") call returns the existing item's id
"0001" and leaves the state unchanged, not a new id as the claim states for a
call after 5000 ms. -/
theorem c5_after_timeout_returns_existing_id_counterexample :
    (createItem (createItem initialState none (some "Report") 0 "T0").state
        (createItem initialState none (some "Report") 0 "T0").lastCreation
        (some "Report") 6000 "T2").id
      = (createItem initialState none (some "Report") 0 "T0").id
    ∧ (createItem (createItem initialState none (some "Report") 0 "T0").state
        (createItem initialState none (some "Report") 0 "T0").lastCreation
        (some "Report") 6000 "T2").state
      = (createItem initialState none (some "Report") 0 "T0").state
    ∧ (createItem initialState none (some "Report") 0 "T0").id = "0001" :=
  ⟨by decide, by decide, by decide⟩

/-- C5 witness: the name-based idempotency branch instantiated on a concrete
canvas holding a document named "A". -/
theorem c5_create_idempotency_throttle_witness :
    jsTrim ((some "A").getD "") ≠ ""
    ∧ oneItemState.items.find? (fun it =>
        decide (it.type = CardType.document ∧ jsTrim it.name = jsTrim ((some "A").getD "")))
        = some (mkDoc "0001" "A")
    ∧ createItem oneItemState none (some "A") 5 "T"
        = { id := (mkDoc "0001" "A").id, state := oneItemState, lastCreation := none } :=
  ⟨by decide, by decide,
   c5_create_idempotency_throttle.1 oneItemState none (some "A") 5 "T" (mkDoc "0001" "A")
     (by decide) (by decide)⟩

/-- Filtering out an id removes every witness of that id. -/
lemma any_filter_ne (l : List Item) (itemId : String) :
    ((l.filter fun p => p.id ≠ itemId).any fun p => p.id = itemId) = false := by
  rw [← Bool.not_eq_true, List.any_eq_true]
  rintro ⟨p, hp, hpid⟩
  obtain ⟨_, hne⟩ := List.mem_filter.mp hp
  simp only [decide_eq_true_eq] at hne hpid
  exact hne hpid

/-- C6 (amended): deleting an existing item yields deleted:<id>, deleting it
again always succeeds and yields not_found:<id>, and the state after the second
call equals the state after the first call in every component except
lastAction, which records not_found:<id> instead of deleted:<id>. -/
theorem c6_delete_idempotent_up_to_lastAction (st : AgentState) (itemId : String)
    (h : (st.items.any fun p => p.id = itemId) = true) :
    (deleteItemAction st itemId).1 = "deleted:" ++ itemId
    ∧ (deleteItemAction (deleteItemAction st itemId).2 itemId).1 = "not_found:" ++ itemId
    ∧ (deleteItemAction (deleteItemAction st itemId).2 itemId).2
        = { (deleteItemAction st itemId).2 with lastAction := some ("not_found:" ++ itemId) }
    ∧ (deleteItemAction (deleteItemAction st itemId).2 itemId).2.items
        = (deleteItemAction st itemId).2.items
    ∧ (((deleteItemAction st itemId).2.items.any fun p => p.id = itemId) = false) := by
  have h2 : (((deleteItemAction st itemId).2.items.any fun p => p.id = itemId) = false) :=
    any_filter_ne st.items itemId
  have hfilter : (deleteItemAction st itemId).2.items.filter (fun p => p.id ≠ itemId)
      = (deleteItemAction st itemId).2.items := by
    apply List.filter_eq_self.mpr
    intro a ha
    exact (List.mem_filter.mp ha).2
  have h3 : (deleteItemAction (deleteItemAction st itemId).2 itemId).2
      = { (deleteItemAction st itemId).2 with lastAction := some ("not_found:" ++ itemId) } := by
    show deleteItem (deleteItemAction st itemId).2 itemId = _
    unfold deleteItem
    rw [h2, hfilter]
    rfl
  refine ⟨?_, ?_, h3, by rw [h3], h2⟩
  · show (if ((st.items.any fun p => p.id = itemId) = true)
        then "deleted:" ++ itemId else "not_found:" ++ itemId) = "deleted:" ++ itemId
    rw [if_pos h]
  · show (if (((deleteItemAction st itemId).2.items.any fun p => p.id = itemId) = true)
        then "deleted:" ++ itemId else "not_found:" ++ itemId) = "not_found:" ++ itemId
    rw [h2]
    simp

/-- C6 counterexample: the full canvas state after the second delete differs
from the state after the first delete, because lastAction moves from
deleted:0001 to not_found:0001. -/
theorem c6_second_delete_changes_lastAction_counterexample :
    (deleteItemAction oneItemState "0001").2.lastAction = some "deleted:0001"
    ∧ (deleteItemAction (deleteItemAction oneItemState "0001").2 "0001").2.lastAction
        = some "not_found:0001"
    ∧ (deleteItemAction (deleteItemAction oneItemState "0001").2 "0001").2
        ≠ (deleteItemAction oneItemState "0001").2 :=
  ⟨by decide, by decide, by decide⟩

/-- C6 witness: the delete tags instantiated on the one-item canvas. -/
theorem c6_delete_idempotent_up_to_lastAction_witness :
    ((oneItemState.items.any fun p => p.id = "0001") = true)
    ∧ (deleteItemAction oneItemState "0001").1 = "deleted:" ++ "0001"
    ∧ (deleteItemAction (deleteItemAction oneItemState "0001").2 "0001").1
        = "not_found:" ++ "0001" :=
  ⟨by decide,
   (c6_delete_idempotent_up_to_lastAction oneItemState "0001" (by decide)).1,
   (c6_delete_idempotent_up_to_lastAction oneItemState "0001" (by decide)).2.1⟩

/-- The createdAt value produced by an update is never empty when the clock
value is non-empty. -/
lemma jsOrStr_ne_empty (c : Option String) (now : String) (h : now ≠ "") :
    jsOrStr c now ≠ "" := by
  cases c with
  | none => exact h
  | some t =>
    show (if t = "" then now else t) ≠ ""
    by_cases ht : t = ""
    · rw [if_pos ht]
      exact h
    · rw [if_neg ht]
      exact ht

lemma jsOrStr_some_of_ne (v : String) (hv : v ≠ "") (d : String) : jsOrStr (some v) d = v := by
  show (if v = "" then d else v) = v
  rw [if_neg hv]

/-- A second content update preserves the createdAt stamped by the first one. -/
lemma createdAt_update_update (d : DocumentData) (s s2 now now2 : String) (h : now ≠ "") :
    (updateDocumentContent (updateDocumentContent d s now) s2 now2).createdAt
      = (updateDocumentContent d s now).createdAt := by
  show some (jsOrStr (some (jsOrStr d.createdAt now)) now2) = some (jsOrStr d.createdAt now)
  rw [jsOrStr_some_of_ne _ (jsOrStr_ne_empty d.createdAt now h)]

/-- C8 (amended): a non-empty createdAt value survives any content mutation
unchanged while modifiedAt advances; once one mutation has run with a
non-empty clock, createdAt is stable under all further mutations, both at the
payload level and across the state-level setContent path; createdAt is filled
with the current time exactly when no value exists or the stored value is the
empty string. -/
theorem c8_created_at_immutable_once_set (data : DocumentData) (s s2 now now2 : String)
    (st : AgentState) (itemId : String) :
    (∀ v, data.createdAt = some v → v ≠ "" →
        (updateDocumentContent data s now).createdAt = some v)
    ∧ (now ≠ "" →
        (updateDocumentContent (updateDocumentContent data s now) s2 now2).createdAt
          = (updateDocumentContent data s now).createdAt)
    ∧ (data.createdAt = none → (updateDocumentContent data s now).createdAt = some now)
    ∧ (data.createdAt = some "" → (updateDocumentContent data s now).createdAt = some now)
    ∧ (updateDocumentContent data s now).modifiedAt = some now
    ∧ (now ≠ "" →
        ((setDocumentContent (setDocumentContent st itemId s now) itemId s2 now2).items.map
            fun x => x.data.createdAt)
          = ((setDocumentContent st itemId s now).items.map fun x => x.data.createdAt)) := by
  refine ⟨?_, fun h => createdAt_update_update data s s2 now now2 h, ?_, ?_, rfl, ?_⟩
  · intro v hv hne
    show some (jsOrStr data.createdAt now) = some v
    rw [hv, jsOrStr_some_of_ne v hne]
  · intro hv
    show some (jsOrStr data.createdAt now) = some now
    rw [hv]
    rfl
  · intro hv
    show some (jsOrStr data.createdAt now) = some now
    rw [hv]
    rfl
  · intro h
    show ((st.items.map _).map _).map _ = (st.items.map _).map _
    rw [List.map_map, List.map_map, List.map_map]
    apply List.map_congr_left
    intro p _
    by_cases hpid : p.id = itemId
    · simp only [Function.comp, if_pos hpid]
      exact createdAt_update_update p.data s s2 now now2 h
    · simp only [Function.comp, if_neg hpid]

/-- C8 counterexample: a payload whose createdAt holds the empty string has a
createdAt value, yet one content mutation overwrites it with the current time,
refuting immutability for every held value. -/
theorem c8_empty_created_at_overwritten_counterexample :
    ({ content := "", createdAt := some "" } : DocumentData).createdAt = some ""
    ∧ (updateDocumentContent { content := "", createdAt := some "" } "x" "T1").createdAt = some "T1"
    ∧ (updateDocumentContent { content := "", createdAt := some "" } "x" "T1").createdAt ≠ some "" :=
  ⟨rfl, rfl, by decide⟩

/-- C8 witness: immutability instantiated on a concrete payload. -/
theorem c8_created_at_immutable_once_set_witness :
    (({ content := "", createdAt := some "T0" } : DocumentData).createdAt = some "T0")
    ∧ ("T0" : String) ≠ ""
    ∧ (updateDocumentContent { content := "", createdAt := some "T0" } "x" "T1").createdAt
        = some "T0" :=
  ⟨rfl, by decide,
   (c8_created_at_immutable_once_set { content := "", createdAt := some "T0" } "x" "y" "T1" "T2"
       initialState "0001").1 "T0" rfl (by decide)⟩

/-- C9: the auto-export is debounced through a single timer: starting idle, a
burst of snapshot changes whose consecutive gaps stay below 1000 ms emits no
export during the burst and, once the last timer fires, exactly one export
call carrying the latest snapshot; after any burst exactly one timer is
pending, whatever was pending before, so timers never accumulate. -/
theorem c9_debounced_single_export (t : Int) (s : AgentState) (rest : List (Int × AgentState))
    (hgaps : gapsWithinWindow ((t, s) :: rest) = true)
    (hlinked : jsTruthyStr (lastChange (t, s) rest).2.syncSheetId = true) :
    (flushAll (runChanges { pending := [], exports := [] } ((t, s) :: rest))).exports
        = [(lastChange (t, s) rest).2]
    ∧ (flushAll (runChanges { pending := [], exports := [] } ((t, s) :: rest))).pending = []
    ∧ ∀ ds : DebounceState, (runChanges ds ((t, s) :: rest)).pending
        = [((lastChange (t, s) rest).1 + 1000, (lastChange (t, s) rest).2)] := by
  have hfirst : runChanges { pending := [], exports := [] } ((t, s) :: rest)
      = runChanges { pending := [(t + 1000, s)], exports := [] } rest := by
    show runChanges (applyChange { pending := [], exports := [] } t s) rest = _
    have : applyChange { pending := [], exports := [] } t s
        = { pending := [(t + 1000, s)], exports := [] } := by
      unfold applyChange fireDue
      simp
    rw [this]
  have hexp : (runChanges { pending := [], exports := [] } ((t, s) :: rest)).exports = [] := by
    rw [hfirst]
    exact runChanges_burst_exports rest t s [] hgaps
  have hpend := runChanges_pending rest { pending := [], exports := [] } t s
  refine ⟨?_, rfl, fun ds => runChanges_pending rest ds t s⟩
  show (runChanges { pending := [], exports := [] } ((t, s) :: rest)).exports
      ++ (((runChanges { pending := [], exports := [] } ((t, s) :: rest)).pending.filter
            fun p => jsTruthyStr p.2.syncSheetId).map Prod.snd)
    = [(lastChange (t, s) rest).2]
  rw [hexp, hpend]
  simp [List.filter, hlinked]

/-- C9 witness: three rapid changes collapse into the single export of the
final linked snapshot. -/
theorem c9_debounced_single_export_witness :
    gapsWithinWindow [(0, linkedSnap "a"), (500, linkedSnap "b"), (900, linkedSnap "c")] = true
    ∧ jsTruthyStr
        (lastChange (0, linkedSnap "a") [(500, linkedSnap "b"), (900, linkedSnap "c")]).2.syncSheetId
        = true
    ∧ (flushAll (runChanges { pending := [], exports := [] }
          [(0, linkedSnap "a"), (500, linkedSnap "b"), (900, linkedSnap "c")])).exports
        = [(lastChange (0, linkedSnap "a") [(500, linkedSnap "b"), (900, linkedSnap "c")]).2] :=
  ⟨by decide, by decide,
   (c9_debounced_single_export 0 (linkedSnap "a") [(500, linkedSnap "b"), (900, linkedSnap "c")]
     (by decide) (by decide)).1⟩

end ApexAi

